import Mathlib

/-!
Verification of the task-persistence and task-mutation core of the
to-do application in `todo_app.py` (class `TodoApp`).

The embedding models Python/JSON values with an inductive `Json` type
(numbers are modelled as integers; the application only ever stores
integers, strings and `None` in task fields).  A `Json.obj` models a
Python `dict` as produced by `json.load`, so its keys are distinct.
Python `==` (which identifies `True` with `1`) is modelled by `pyEq`.
-/

namespace Todo

/-- JSON / Python values as held in task fields and files. -/
inductive Json where
  | null : Json
  | bool : Bool → Json
  | num : Int → Json
  | str : String → Json
  | arr : List Json → Json
  | obj : List (String × Json) → Json

/-- A task record, mirroring the `Task` dataclass.  Field values are
dynamically typed in Python, so every field holds a `Json` value;
`due_date` and `completed_at` default to `None` (`Json.null`). -/
structure Task where
  id : Json
  title : Json
  description : Json
  priority : Json
  status : Json
  category : Json
  created_at : Json
  due_date : Json := Json.null
  completed_at : Json := Json.null

/-- The mutable state of a `TodoApp` instance: the ordered task list and
the `next_id` counter.  After loading an arbitrary file `next_id` can be
any JSON value, hence its type. -/
structure TodoApp where
  tasks : List Task
  next_id : Json

/-- The state set up by `__init__` before `load_tasks` runs:
`self.tasks = []`, `self.next_id = 1`. -/
def initialTodoApp : TodoApp := ⟨[], Json.num 1⟩

/-- Display label `Priority.LOW.value`. -/
def lowVal : String := "🟢 Low"

/-- Display label `Priority.MEDIUM.value`. -/
def mediumVal : String := "🟡 Medium"

/-- Display label `Priority.HIGH.value`. -/
def highVal : String := "🔴 High"

/-- Display label `Priority.URGENT.value`. -/
def urgentVal : String := "🚨 Urgent"

/-- Display label `Status.PENDING.value`. -/
def pendingVal : String := "⏳ Pending"

/-- Display label `Status.IN_PROGRESS.value`. -/
def inProgressVal : String := "🔄 In Progress"

/-- Display label `Status.COMPLETED.value`. -/
def completedVal : String := "✅ Completed"

/-- Python `str.strip()` whitespace test, modelled on the ASCII
whitespace characters (the inputs of this program are ASCII). -/
def pyIsSpace (c : Char) : Bool :=
  c == ' ' || c == '\t' || c == '\n' || c == '\r' || c == '\x0b' || c == '\x0c'

/-- Python `s.strip()`: drop leading and trailing whitespace. -/
def pyStrip (s : String) : String :=
  ⟨((s.data.dropWhile pyIsSpace).reverse.dropWhile pyIsSpace).reverse⟩

/-- Python `str.lower()` on one character (ASCII model). -/
def pyCharLower (c : Char) : Char :=
  if 'A' ≤ c && c ≤ 'Z' then Char.ofNat (c.toNat + 32) else c

/-- Python `s.lower()` (ASCII model). -/
def pyLower (s : String) : String := ⟨s.data.map pyCharLower⟩

/-- Lookup of a key in a Python dict modelled as an association list
(`d.get(k)` / `d[k]`); keys are distinct, so first match = only match. -/
def getField (fields : List (String × Json)) (k : String) : Option Json :=
  (fields.find? (fun kv => kv.1 == k)).map (fun kv => kv.2)

mutual

/-- Python `==` on JSON values: `True == 1`, `False == 0`; lists compare
pointwise; dicts compare as maps (same size, every key of the left dict
present in the right with an equal value — for distinct keys this is
Python dict equality). -/
def pyEq : Json → Json → Bool
  | .null, .null => true
  | .bool a, .bool b => a == b
  | .bool a, .num n => (if a then (1 : Int) else 0) == n
  | .num n, .bool b => n == (if b then (1 : Int) else 0)
  | .num a, .num b => a == b
  | .str a, .str b => a == b
  | .arr as, .arr bs => pyEqList as bs
  | .obj as, .obj bs => as.length == bs.length && pyEqFields bs as
  | _, _ => false

/-- Pointwise Python `==` on lists. -/
def pyEqList : List Json → List Json → Bool
  | [], [] => true
  | a :: as, b :: bs => pyEq a b && pyEqList as bs
  | _, _ => false

/-- Every key of the second dict is present in `bs` with a
Python-equal value. -/
def pyEqFields (bs : List (String × Json)) : List (String × Json) → Bool
  | [] => true
  | (k, v) :: rest =>
    (match getField bs k with
     | some w => pyEq v w
     | none => false) && pyEqFields bs rest

end

/-- Python `==` on two `Task` dataclass instances: field tuples compared
pointwise with Python `==`. -/
def taskPyEq (t u : Task) : Bool :=
  pyEq t.id u.id && pyEq t.title u.title && pyEq t.description u.description &&
  pyEq t.priority u.priority && pyEq t.status u.status && pyEq t.category u.category &&
  pyEq t.created_at u.created_at && pyEq t.due_date u.due_date &&
  pyEq t.completed_at u.completed_at

/-- The `asdict(task)` serialization of a task: a JSON object listing
all nine fields in declaration order. -/
def taskToJson (t : Task) : Json :=
  .obj [("id", t.id), ("title", t.title), ("description", t.description),
        ("priority", t.priority), ("status", t.status), ("category", t.category),
        ("created_at", t.created_at), ("due_date", t.due_date),
        ("completed_at", t.completed_at)]

/-- The dict built by `save_tasks`:
`{'tasks': [asdict(task) for task in self.tasks], 'next_id': self.next_id}`. -/
def storeToJson (s : TodoApp) : Json :=
  .obj [("tasks", .arr (s.tasks.map taskToJson)), ("next_id", s.next_id)]

/-- Exceptions that `load_tasks` can let escape (they are not in the
`except (json.JSONDecodeError, FileNotFoundError)` clause). -/
inductive PyErr where
  | typeError : PyErr
  | attributeError : PyErr
deriving DecidableEq, Repr

/-- The field names of the `Task` dataclass; `Task(**d)` accepts exactly
these keywords, the first seven being required. -/
def taskFieldNames : List String :=
  ["id", "title", "description", "priority", "status", "category",
   "created_at", "due_date", "completed_at"]

/-- `Task(**task)` on a parsed JSON value: succeeds iff the value is a
dict whose keys are all `Task` field names and which contains the seven
required fields; otherwise raises `TypeError`.  Values are not
type-checked (Python dataclasses do not check annotations). -/
def taskFromJson : Json → Except PyErr Task
  | .obj fields =>
    if fields.all (fun kv => taskFieldNames.contains kv.1) then
      match getField fields "id", getField fields "title",
            getField fields "description", getField fields "priority",
            getField fields "status", getField fields "category",
            getField fields "created_at" with
      | some i, some ti, some de, some pr, some st, some ca, some cr =>
        .ok ⟨i, ti, de, pr, st, ca, cr, (getField fields "due_date").getD .null,
             (getField fields "completed_at").getD .null⟩
      | _, _, _, _, _, _, _ => .error .typeError
    else .error .typeError
  | _ => .error .typeError

/-- The list comprehension `[Task(**task) for task in ...]`: stops at the
first record that raises. -/
def tasksFromJsonList : List Json → Except PyErr (List Task)
  | [] => .ok []
  | x :: xs =>
    match taskFromJson x with
    | .error e => .error e
    | .ok t =>
      match tasksFromJsonList xs with
      | .error e => .error e
      | .ok ts => .ok (t :: ts)

/-- Iterating `data.get('tasks', [])` and building tasks: a JSON array is
iterated elementwise; any non-list value makes `Task(**task)` (or the
iteration itself) raise `TypeError`. -/
def tasksFromJson : Json → Except PyErr (List Task)
  | .arr xs => tasksFromJsonList xs
  | _ => .error .typeError

/-- State of the backing file: absent, present but not valid JSON
(`json.load` raises `JSONDecodeError`), or parsed to a JSON value. -/
inductive FileState where
  | absent : FileState
  | malformed : FileState
  | parsed : Json → FileState

/-- `load_tasks`: if the file does not exist nothing happens; a
`JSONDecodeError` is caught and resets the store to `([], 1)`; a parsed
non-dict raises `AttributeError` at `data.get` and a bad task record
raises `TypeError` — neither is caught, so they escape to the caller
(modelled as `.error`). -/
def load_tasks (s : TodoApp) (f : FileState) : Except PyErr TodoApp :=
  match f with
  | .absent => .ok s
  | .malformed => .ok ⟨[], Json.num 1⟩
  | .parsed (.obj fields) =>
    match tasksFromJson ((getField fields "tasks").getD (.arr [])) with
    | .ok ts => .ok ⟨ts, (getField fields "next_id").getD (Json.num 1)⟩
    | .error e => .error e
  | .parsed _ => .error .attributeError

/-- The JSON value `save_tasks` serializes to the file via `json.dump`. -/
def save_tasks (s : TodoApp) : Json := storeToJson s

/-- The sequence of states the backing file passes through during
`save_tasks`: `open(self.data_file, 'w')` truncates the file in place
(an empty file is not valid JSON, hence `.malformed`), then `json.dump`
writes the new serialization.  No temporary file or rename is used. -/
def saveTrace (old : FileState) (s : TodoApp) : List FileState :=
  [old, .malformed, .parsed (save_tasks s)]

/-- The `Priority` enumeration in declaration order: `list(Priority)`. -/
def priorityList : List String := [lowVal, mediumVal, highVal, urgentVal]

/-- Python list indexing `xs[i]`: non-negative indices in range, negative
indices count from the end, anything else raises `IndexError` (`none`). -/
def pyIndex (xs : List α) (i : Int) : Option α :=
  if 0 ≤ i then xs.get? i.toNat
  else if (-i).toNat ≤ xs.length then xs.get? (xs.length - (-i).toNat)
  else none

/-- The priority chosen by `add_task`:
`int(input(...))` raising `ValueError` is modelled by `none`; otherwise
`list(Priority)[choice - 1].value`, with `IndexError` and `ValueError`
both caught and defaulted to `Priority.MEDIUM.value`. -/
def selectPriority (choice : Option Int) : String :=
  match choice with
  | none => mediumVal
  | some n => (pyIndex priorityList (n - 1)).getD mediumVal

/-- Decimal digit test for the `strptime` regex classes. -/
def isDig (c : Char) : Bool := '0' ≤ c && c ≤ '9'

/-- Numeric value of a decimal digit character. -/
def digVal (c : Char) : Nat := c.toNat - '0'.toNat

/-- Matches the `%m` regex `1[0-2]|0[1-9]|[1-9]` on a two-character
prefix. -/
def monthTwo (a b : Char) : Bool :=
  (a == '1' && '0' ≤ b && b ≤ '2') || (a == '0' && '1' ≤ b && b ≤ '9')

/-- Matches the `%d` regex `3[01]|[12]\d|0[1-9]|[1-9]` on a
two-character prefix. -/
def dayTwo (a b : Char) : Bool :=
  (a == '3' && '0' ≤ b && b ≤ '1') || ('1' ≤ a && a ≤ '2' && isDig b) ||
  (a == '0' && '1' ≤ b && b ≤ '9')

/-- Matches a one-or-two-digit field of the `strptime` regex: the
two-digit alternative is taken when it matches, else a single digit in
`[1-9]`.  (Whenever the two-digit form matches, the character after a
one-digit parse would be a digit, which can never continue the
`-`-separated format, so this is equivalent to the regex with
backtracking.) -/
def parseTwoOrOne (valid2 : Char → Char → Bool) : List Char → Option (Nat × List Char)
  | a :: b :: rest =>
    if valid2 a b then some (digVal a * 10 + digVal b, rest)
    else if '1' ≤ a && a ≤ '9' then some (digVal a, b :: rest)
    else none
  | [a] => if '1' ≤ a && a ≤ '9' then some (digVal a, []) else none
  | [] => none

/-- The regex part of `datetime.strptime(s, "%Y-%m-%d")`: exactly four
digits, `-`, a month in `1..12` (one or two digits), `-`, a day in
`1..31` (one or two digits), end of string. -/
def parseYMD (s : String) : Option (Nat × Nat × Nat) :=
  match s.toList with
  | y1 :: y2 :: y3 :: y4 :: '-' :: rest =>
    if isDig y1 && isDig y2 && isDig y3 && isDig y4 then
      match parseTwoOrOne monthTwo rest with
      | some (m, '-' :: rest2) =>
        match parseTwoOrOne dayTwo rest2 with
        | some (d, []) =>
          some (((digVal y1 * 10 + digVal y2) * 10 + digVal y3) * 10 + digVal y4, m, d)
        | _ => none
      | _ => none
    else none
  | _ => none

/-- Gregorian leap-year rule used by `datetime`. -/
def isLeap (y : Nat) : Bool := y % 4 == 0 && (y % 100 != 0 || y % 400 == 0)

/-- Number of days in a month, as validated by the `datetime`
constructor. -/
def daysInMonth (y m : Nat) : Nat :=
  if m == 2 then (if isLeap y then 29 else 28)
  else if m == 4 || m == 6 || m == 9 || m == 11 then 30
  else 31

/-- Whether `datetime.datetime.strptime(s, "%Y-%m-%d")` succeeds: the
format regex matches the whole string and the date is a real calendar
date with year at least `MINYEAR = 1`. -/
def validDate (s : String) : Bool :=
  match parseYMD s with
  | some (y, m, d) => 1 ≤ y && d ≤ daysInMonth y m
  | none => false

/-- Outcome of `add_task`.  `emptyTitle`: the stripped title was empty
and the method returned before any mutation.  `added s t w`: the task
`t` was appended, the counter incremented, and `save_tasks` wrote `w`
(the serialization of the new state `s`).  `counterTypeError s`: the
stored `next_id` was not a number, so `self.next_id += 1` raised
`TypeError` after the task was appended but before `save_tasks` ran. -/
inductive AddResult where
  | emptyTitle : AddResult
  | added : TodoApp → Task → Json → AddResult
  | counterTypeError : TodoApp → AddResult

/-- The `Task(...)` constructed by `add_task` from the prompt answers:
stripped title and description, the selected priority, category
defaulting to `"General"`, `Pending` status, `created_at` = now, and a
due date only when the stripped input is non-empty and parses. -/
def newTask (titleRaw descRaw : String) (prChoice : Option Int)
    (catRaw dueRaw now : String) (i : Json) : Task :=
  { id := i, title := .str (pyStrip titleRaw), description := .str (pyStrip descRaw),
    priority := .str (selectPriority prChoice), status := .str pendingVal,
    category := .str (if pyStrip catRaw == "" then "General" else pyStrip catRaw),
    created_at := .str now,
    due_date := if pyStrip dueRaw != "" && validDate (pyStrip dueRaw) then
                  .str (pyStrip dueRaw)
                else .null,
    completed_at := .null }

/-- The `add_task` method.  Inputs are the raw prompt answers: the title
and description strings, the parsed priority selection (`none` when
`int(...)` raised `ValueError`), the category and due-date strings, and
the current `datetime.now()` timestamp string.  The new task gets
`id = self.next_id`; `self.next_id += 1` then follows Python `+`:
integers and booleans increment to an integer, anything else raises
`TypeError` (after the append, before the save). -/
def add_task (s : TodoApp) (titleRaw descRaw : String) (prChoice : Option Int)
    (catRaw dueRaw now : String) : AddResult :=
  if pyStrip titleRaw == "" then .emptyTitle
  else
    match s.next_id with
    | .num n =>
      let s' : TodoApp :=
        ⟨s.tasks ++ [newTask titleRaw descRaw prChoice catRaw dueRaw now (.num n)],
         .num (n + 1)⟩
      .added s' (newTask titleRaw descRaw prChoice catRaw dueRaw now (.num n))
        (storeToJson s')
    | .bool b =>
      let s' : TodoApp :=
        ⟨s.tasks ++ [newTask titleRaw descRaw prChoice catRaw dueRaw now (.bool b)],
         .num ((if b then 1 else 0) + 1)⟩
      .added s' (newTask titleRaw descRaw prChoice catRaw dueRaw now (.bool b))
        (storeToJson s')
    | other =>
      .counterTypeError
        ⟨s.tasks ++ [newTask titleRaw descRaw prChoice catRaw dueRaw now other], other⟩

/-- The in-memory state after `add_task` returns or raises. -/
def addResultStore (s : TodoApp) : AddResult → TodoApp
  | .emptyTitle => s
  | .added s' _ _ => s'
  | .counterTypeError s' => s'

/-- The file content written by `add_task`, if any. -/
def addResultWrite : AddResult → Option Json
  | .added _ _ w => some w
  | _ => none

/-- The task created by `add_task`, if any. -/
def addResultTask : AddResult → Option Task
  | .added _ t _ => some t
  | _ => none

/-- Outcome of `mark_complete`.  `noPending`: every task already had
completed status, so the method printed "No pending tasks to complete!"
and returned before reading an id.  `invalidIdInput`: `int(input(...))`
raised `ValueError`.  `notFound`: no task has the given id.
`alreadyCompleted`: the task was already completed ("Task is already
completed!"), nothing mutated, nothing saved.  `completed s t w`: the
task was stamped and `save_tasks` wrote `w`. -/
inductive MarkResult where
  | noPending : MarkResult
  | invalidIdInput : MarkResult
  | notFound : MarkResult
  | alreadyCompleted : MarkResult
  | completed : TodoApp → Task → Json → MarkResult

/-- Replace the first element satisfying `p` (Python mutates the object
found by `next(...)` in place). -/
def replaceFirst (p : α → Bool) (f : α → α) : List α → List α
  | [] => []
  | x :: xs => if p x then f x :: xs else x :: replaceFirst p f xs

/-- The `mark_complete` method, with the raw id input (`none` when
`int(...)` raised `ValueError`) and the `datetime.now()` timestamp. -/
def mark_complete (s : TodoApp) (idInput : Option Int) (now : String) : MarkResult :=
  if s.tasks.all (fun t => pyEq t.status (Json.str completedVal)) then .noPending
  else
    match idInput with
    | none => .invalidIdInput
    | some tid =>
      match s.tasks.find? (fun t => pyEq t.id (Json.num tid)) with
      | none => .notFound
      | some t =>
        if pyEq t.status (Json.str completedVal) then .alreadyCompleted
        else
          let upd : Task → Task := fun u =>
            { u with status := Json.str completedVal, completed_at := Json.str now }
          let s' : TodoApp :=
            ⟨replaceFirst (fun u => pyEq u.id (Json.num tid)) upd s.tasks, s.next_id⟩
          .completed s' (upd t) (storeToJson s')

/-- The in-memory state after `mark_complete`. -/
def markResultStore (s : TodoApp) : MarkResult → TodoApp
  | .completed s' _ _ => s'
  | _ => s

/-- The file content written by `mark_complete`, if any. -/
def markResultWrite : MarkResult → Option Json
  | .completed _ _ w => some w
  | _ => none

/-- Outcome of `delete_task`.  `emptyStore`: the early `if not
self.tasks: return`.  `cancelled`: confirmation was not `y`. -/
inductive DeleteResult where
  | emptyStore : DeleteResult
  | invalidIdInput : DeleteResult
  | notFound : DeleteResult
  | cancelled : DeleteResult
  | deleted : TodoApp → Task → Json → DeleteResult

/-- CPython `list.remove(t)` where `t` is known to sit at index `i`:
the scan removes the first element that compares Python-equal to `t`,
and at index `i` the identity shortcut of `PyObject_RichCompareBool`
fires unconditionally. -/
def removeEqOrAt : List Task → Task → Nat → List Task
  | [], _, _ => []
  | _ :: xs, _, 0 => xs
  | x :: xs, t, i + 1 => if taskPyEq x t then xs else x :: removeEqOrAt xs t i

/-- The `delete_task` method, with the raw id input and the confirmation
answer. -/
def delete_task (s : TodoApp) (idInput : Option Int) (confirm : String) : DeleteResult :=
  if s.tasks.isEmpty then .emptyStore
  else
    match idInput with
    | none => .invalidIdInput
    | some tid =>
      match s.tasks.find? (fun t => pyEq t.id (Json.num tid)) with
      | none => .notFound
      | some t =>
        if pyLower confirm == "y" then
          let tasks' :=
            removeEqOrAt s.tasks t (s.tasks.findIdx (fun u => pyEq u.id (Json.num tid)))
          let s' : TodoApp := ⟨tasks', s.next_id⟩
          .deleted s' t (storeToJson s')
        else .cancelled

/-- The in-memory state after `delete_task`. -/
def deleteResultStore (s : TodoApp) : DeleteResult → TodoApp
  | .deleted s' _ _ => s'
  | _ => s

/-- The file content written by `delete_task`, if any. -/
def deleteResultWrite : DeleteResult → Option Json
  | .deleted _ _ w => some w
  | _ => none

/-- A store mutation issued through the menu: an `add_task` with its
prompt answers, or a `delete_task` with its id input and confirmation. -/
inductive Op where
  | addOp : String → String → Option Int → String → String → String → Op
  | delOp : Option Int → String → Op

/-- Run a sequence of operations; returns the final state and the ids of
the tasks created by the successful `add_task` calls, in order. -/
def runOps (s : TodoApp) : List Op → TodoApp × List Json
  | [] => (s, [])
  | Op.addOp a b c d e f :: rest =>
    match add_task s a b c d e f with
    | .emptyTitle => runOps s rest
    | .added s' t _ =>
      let p := runOps s' rest
      (p.1, t.id :: p.2)
    | .counterTypeError s' => runOps s' rest
  | Op.delOp i c :: rest =>
    runOps (deleteResultStore s (delete_task s i c)) rest


theorem find_decomp {α : Type} {p : α → Bool} {l : List α} {t : α}
    (h : l.find? p = some t) :
    ∃ l1 l2, l = l1 ++ t :: l2 ∧ (∀ u ∈ l1, p u = false) ∧ p t = true := by
  induction l with
  | nil => simp [List.find?] at h
  | cons x xs ih =>
    cases hx : p x with
    | true =>
      rw [List.find?_cons_of_pos _ hx] at h
      obtain rfl : x = t := by injection h
      exact ⟨[], xs, rfl, by simp, hx⟩
    | false =>
      rw [List.find?_cons_of_neg _ (by simp [hx])] at h
      obtain ⟨l1, l2, rfl, h1, ht⟩ := ih h
      exact ⟨x :: l1, l2, rfl, by
        intro u hu
        rcases List.mem_cons.mp hu with rfl | hu
        · exact hx
        · exact h1 u hu, ht⟩

theorem replaceFirst_append {α : Type} (p : α → Bool) (f : α → α) (l1 l2 : List α) (t : α)
    (h1 : ∀ u ∈ l1, p u = false) (ht : p t = true) :
    replaceFirst p f (l1 ++ t :: l2) = l1 ++ f t :: l2 := by
  induction l1 with
  | nil => simp [replaceFirst, ht]
  | cons x xs ih =>
    have hx : p x = false := h1 x (List.mem_cons_self x xs)
    simp only [List.cons_append, replaceFirst, hx]
    simp only [Bool.false_eq_true, if_false, List.append_eq]
    rw [ih (fun u hu => h1 u (List.mem_cons_of_mem x hu))]

theorem findIdx_prefix {α : Type} (p : α → Bool) (l1 l2 : List α) (t : α)
    (h1 : ∀ u ∈ l1, p u = false) (ht : p t = true) :
    List.findIdx p (l1 ++ t :: l2) = l1.length := by
  induction l1 with
  | nil => simp [List.findIdx_cons, ht]
  | cons x xs ih =>
    have hx : p x = false := h1 x (List.mem_cons_self x xs)
    simp [List.findIdx_cons, hx, ih (fun u hu => h1 u (List.mem_cons_of_mem x hu))]

theorem removeEqOrAt_append (l1 l2 : List Task) (t : Task)
    (h1 : ∀ u ∈ l1, taskPyEq u t = false) :
    removeEqOrAt (l1 ++ t :: l2) t l1.length = l1 ++ l2 := by
  induction l1 with
  | nil => rfl
  | cons x xs ih =>
    have hx : taskPyEq x t = false := h1 x (List.mem_cons_self x xs)
    simp only [List.cons_append, List.length_cons, removeEqOrAt, hx]
    simp only [Bool.false_eq_true, if_false, List.append_eq]
    rw [ih (fun u hu => h1 u (List.mem_cons_of_mem x hu))]

theorem taskFromJson_taskToJson (t : Task) : taskFromJson (taskToJson t) = .ok t := rfl

theorem tasksFromJsonList_map (l : List Task) :
    tasksFromJsonList (l.map taskToJson) = .ok l := by
  induction l with
  | nil => rfl
  | cons t ts ih => simp [List.map, tasksFromJsonList, taskFromJson_taskToJson, ih]

theorem taskPyEq_id {u t : Task} (h : taskPyEq u t = true) : pyEq u.id t.id = true := by
  simp only [taskPyEq, Bool.and_eq_true] at h
  exact h.1.1.1.1.1.1.1.1

theorem pyEq_num_trans {a b : Json} {k : Int} (h1 : pyEq a b = true)
    (h2 : pyEq b (Json.num k) = true) : pyEq a (Json.num k) = true := by
  cases a <;> cases b <;> simp_all [pyEq]

theorem pyIndex_out (k : Int) (hk : k < -3 ∨ 4 < k) :
    pyIndex priorityList (k - 1) = none := by
  have hlen : priorityList.length = 4 := rfl
  unfold pyIndex
  rcases hk with hk | hk
  · rw [if_neg (by omega : ¬ (0 : Int) ≤ k - 1), if_neg (by omega)]
  · rw [if_pos (by omega : (0 : Int) ≤ k - 1)]
    exact List.get?_eq_none.mpr (by omega)

/-- Strict ordering on ids as assigned by `add_task`. -/
def jsonLt (a b : Json) : Prop := ∃ x y, a = Json.num x ∧ b = Json.num y ∧ x < y

theorem delete_task_deleted {s : TodoApp} {i : Option Int} {c : String}
    {s' : TodoApp} {t : Task} {w : Json}
    (h : delete_task s i c = .deleted s' t w) : s'.next_id = s.next_id := by
  unfold delete_task at h
  split at h
  · cases h
  · split at h
    · cases h
    · split at h
      · cases h
      · split at h
        · cases h; rfl
        · cases h

theorem delete_preserves_next_id (s : TodoApp) (i : Option Int) (c : String) :
    (deleteResultStore s (delete_task s i c)).next_id = s.next_id := by
  cases hdel : delete_task s i c with
  | deleted s' t w => simpa [deleteResultStore] using delete_task_deleted hdel
  | emptyStore => rfl
  | invalidIdInput => rfl
  | notFound => rfl
  | cancelled => rfl

theorem runOps_spec (ops : List Op) : ∀ (s : TodoApp) (n : Int), s.next_id = Json.num n →
    (∃ m, (runOps s ops).1.next_id = Json.num m ∧ n ≤ m)
  ∧ (∀ j ∈ (runOps s ops).2, ∃ x, j = Json.num x ∧ n ≤ x)
  ∧ (runOps s ops).2.Chain' jsonLt := by
  induction ops with
  | nil => intro s n h; exact ⟨⟨n, h, le_refl n⟩, by simp [runOps], by simp [runOps]⟩
  | cons op rest ih =>
    intro s n h
    cases op with
    | delOp i c =>
      simp only [runOps]
      exact ih _ n (by rw [delete_preserves_next_id]; exact h)
    | addOp a b c d e f =>
      simp only [runOps]
      by_cases ht : (pyStrip a == "") = true
      · have hadd : add_task s a b c d e f = .emptyTitle := by
          simp [add_task, ht]
        rw [hadd]
        exact ih s n h
      · have ht' : (pyStrip a == "") = false := by simpa using ht
        have hadd : add_task s a b c d e f =
            .added ⟨s.tasks ++ [newTask a b c d e f (Json.num n)], Json.num (n + 1)⟩
              (newTask a b c d e f (Json.num n))
              (storeToJson ⟨s.tasks ++ [newTask a b c d e f (Json.num n)], Json.num (n + 1)⟩) := by
          simp [add_task, ht', h]
        rw [hadd]
        obtain ⟨⟨m, hm, hnm⟩, hall, hchain⟩ :=
          ih ⟨s.tasks ++ [newTask a b c d e f (Json.num n)], Json.num (n + 1)⟩ (n + 1) rfl
        refine ⟨⟨m, by simpa using hm, by omega⟩, ?_, ?_⟩
        · intro j hj
          simp only at hj
          rcases List.mem_cons.mp hj with rfl | hj
          · exact ⟨n, by simp [newTask], le_refl n⟩
          · obtain ⟨x, hx, hnx⟩ := hall j hj
            exact ⟨x, hx, by omega⟩
        · simp only
          rw [List.chain'_cons']
          refine ⟨?_, hchain⟩
          intro y hy
          have hy' : y ∈ ((runOps _ rest).2 : List Json) := List.mem_of_mem_head? hy
          obtain ⟨x, hx, hnx⟩ := hall y hy'
          exact ⟨n, x, by simp [newTask], hx, by omega⟩



/-- A pending example task with id 1, as created by the app. -/
def exampleTask : Task :=
  { id := Json.num 1, title := Json.str "Buy milk", description := Json.str "",
    priority := Json.str lowVal, status := Json.str pendingVal,
    category := Json.str "Errands", created_at := Json.str "2024-01-01 10:00:00" }

/-- A completed example task with id 1. -/
def exampleCompletedTask : Task :=
  { exampleTask with
    status := Json.str completedVal,
    completed_at := Json.str "2024-01-01 11:00:00" }

/-- A pending example task with id 2. -/
def exampleTask2 : Task :=
  { exampleTask with
    id := Json.num 2,
    title := Json.str "Write report" }

/-- Whether a JSON value is an object (a Python dict after `json.load`). -/
def jsonIsObj : Json → Bool
  | .obj _ => true
  | _ => false

/-- C4: save followed by load on the same path reproduces an equivalent
store: the same tasks in the same order with the same field values, and
the same next-id counter. -/
theorem save_load_roundtrip (s : TodoApp) :
    load_tasks initialTodoApp (.parsed (save_tasks s)) = .ok s := by
  have h1 : getField [("tasks", Json.arr (s.tasks.map taskToJson)), ("next_id", s.next_id)]
      "tasks" = some (Json.arr (s.tasks.map taskToJson)) := rfl
  have h2 : getField [("tasks", Json.arr (s.tasks.map taskToJson)), ("next_id", s.next_id)]
      "next_id" = some s.next_id := rfl
  simp [load_tasks, save_tasks, storeToJson, h1, h2, tasksFromJson, tasksFromJsonList_map]

/-- C6: creating a task with a title that is empty after stripping fails
validation before any mutation: the method returns at the title check,
the store is unchanged and nothing is written. -/
theorem create_empty_title_no_mutation (s : TodoApp) (titleRaw descRaw : String)
    (prChoice : Option Int) (catRaw dueRaw now : String)
    (h : pyStrip titleRaw = "") :
    add_task s titleRaw descRaw prChoice catRaw dueRaw now = .emptyTitle
  ∧ addResultStore s (add_task s titleRaw descRaw prChoice catRaw dueRaw now) = s
  ∧ addResultWrite (add_task s titleRaw descRaw prChoice catRaw dueRaw now) = none := by
  have hb : (pyStrip titleRaw == "") = true := by simp [h]
  refine ⟨?_, ?_, ?_⟩ <;> simp [add_task, hb, addResultStore, addResultWrite]

/-- C6 witness: a whitespace-only title is rejected without mutation. -/
theorem create_empty_title_no_mutation_witness :
    add_task initialTodoApp "   " "x" (some 2) "Work" "2024-01-02" "ts" = .emptyTitle
  ∧ addResultStore initialTodoApp
      (add_task initialTodoApp "   " "x" (some 2) "Work" "2024-01-02" "ts") = initialTodoApp
  ∧ addResultWrite (add_task initialTodoApp "   " "x" (some 2) "Work" "2024-01-02" "ts") = none :=
  create_empty_title_no_mutation initialTodoApp "   " "x" (some 2) "Work" "2024-01-02" "ts"
    (by decide)

/-- C7: a due-date input that `strptime` rejects does not abort creation;
the task is still created and its due date is left unset (`None`). -/
theorem create_invalid_due_date_dropped (s : TodoApp) (n : Int)
    (titleRaw descRaw : String) (prChoice : Option Int) (catRaw dueRaw now : String)
    (hn : s.next_id = Json.num n) (ht : pyStrip titleRaw ≠ "")
    (hd : validDate (pyStrip dueRaw) = false) :
    ∃ s' t, add_task s titleRaw descRaw prChoice catRaw dueRaw now = .added s' t (storeToJson s')
      ∧ t.due_date = Json.null
      ∧ s'.tasks = s.tasks ++ [t] ∧ s'.next_id = Json.num (n + 1) := by
  have hb : (pyStrip titleRaw == "") = false := by simp [ht]
  refine ⟨⟨s.tasks ++ [newTask titleRaw descRaw prChoice catRaw dueRaw now (Json.num n)],
          Json.num (n + 1)⟩,
    newTask titleRaw descRaw prChoice catRaw dueRaw now (Json.num n), ?_, ?_, rfl, rfl⟩
  · simp [add_task, hb, hn]
  · simp [newTask, hd]

/-- C7 witness: dueDate "2024-13-99" is dropped but the creation
succeeds. -/
theorem create_invalid_due_date_dropped_witness :
    ∃ s' t, add_task initialTodoApp "Pay bills" "" none "" "2024-13-99" "ts"
        = .added s' t (storeToJson s')
      ∧ t.due_date = Json.null
      ∧ s'.tasks = initialTodoApp.tasks ++ [t] ∧ s'.next_id = Json.num (1 + 1) :=
  create_invalid_due_date_dropped initialTodoApp 1 "Pay bills" "" none "" "2024-13-99" "ts"
    rfl (by decide) (by decide)

/-- C9: when the file parses as an object whose task records all satisfy
the schema but the next-id key is absent, load populates the tasks and
sets next-id to 1 without recomputing it from the loaded ids; a
subsequent create then reuses the id of a loaded task. -/
theorem load_missing_next_id_defaults_to_one :
    (∀ (fields : List (String × Json)) (ts : List Task),
        getField fields "next_id" = none →
        tasksFromJson ((getField fields "tasks").getD (Json.arr [])) = .ok ts →
        load_tasks initialTodoApp (.parsed (.obj fields)) = .ok ⟨ts, Json.num 1⟩)
  ∧ load_tasks initialTodoApp (.parsed (.obj [("tasks", Json.arr [taskToJson exampleTask])]))
      = .ok ⟨[exampleTask], Json.num 1⟩
  ∧ addResultTask (add_task ⟨[exampleTask], Json.num 1⟩ "Another" "" none "" "" "ts2")
      = some (newTask "Another" "" none "" "" "ts2" (Json.num 1))
  ∧ (newTask "Another" "" none "" "" "ts2" (Json.num 1)).id = exampleTask.id := by
  refine ⟨?_, rfl, rfl, rfl⟩
  intro fields ts h1 h2
  simp [load_tasks, h2, h1]

/-- C9 witness: a concrete file with one task record and no next-id key
loads with next-id 1. -/
theorem load_missing_next_id_defaults_to_one_witness :
    load_tasks initialTodoApp (.parsed (.obj [("tasks", Json.arr [taskToJson exampleTask])]))
      = .ok ⟨[exampleTask], Json.num 1⟩ :=
  load_missing_next_id_defaults_to_one.1 [("tasks", Json.arr [taskToJson exampleTask])]
    [exampleTask] rfl rfl

/-- A well-formed previous content of the backing file. -/
def examplePrevFile : FileState :=
  .parsed (.obj [("tasks", Json.arr []), ("next_id", Json.num 1)])

/-- C1 counterexample: during `save_tasks` the backing file passes
through the truncated state, which holds neither the old nor the new
data — the write-to-temp-then-replace property fails for save. -/
theorem save_in_place_counterexample :
    ¬ (∀ c ∈ saveTrace examplePrevFile ⟨[exampleTask], Json.num 2⟩,
        c = examplePrevFile ∨ c = .parsed (save_tasks ⟨[exampleTask], Json.num 2⟩)) := by
  intro h
  have hm := h .malformed (by simp [saveTrace])
  rcases hm with h1 | h1
  · exact FileState.noConfusion (h1 : FileState.malformed = FileState.parsed _)
  · exact FileState.noConfusion h1

/-- C1 amended: `save_tasks` serializes the full store to the
destination in place — the trace starts at the old content and ends at
the new serialization — but truncates first, so an intermediate state
holds neither the old content nor any parseable content. -/
theorem save_truncates_then_writes (old : FileState) (s : TodoApp)
    (h : old ≠ FileState.malformed) :
    (saveTrace old s).head? = some old
  ∧ (saveTrace old s).getLast? = some (.parsed (save_tasks s))
  ∧ ∃ c ∈ saveTrace old s, c ≠ old ∧ ∀ j : Json, c ≠ FileState.parsed j := by
  refine ⟨rfl, rfl, FileState.malformed, by simp [saveTrace], fun hc => h hc.symm,
    fun j hc => FileState.noConfusion hc⟩

/-- C1 amended witness: concrete instance of the truncation behaviour. -/
theorem save_truncates_then_writes_witness :
    (saveTrace examplePrevFile initialTodoApp).head? = some examplePrevFile
  ∧ (saveTrace examplePrevFile initialTodoApp).getLast?
      = some (.parsed (save_tasks initialTodoApp))
  ∧ ∃ c ∈ saveTrace examplePrevFile initialTodoApp,
      c ≠ examplePrevFile ∧ ∀ j : Json, c ≠ FileState.parsed j :=
  save_truncates_then_writes examplePrevFile initialTodoApp
    (fun h => FileState.noConfusion (h : FileState.parsed _ = FileState.malformed))


/-- C2 counterexample: a file that parses as JSON but whose task record
violates the Task schema (missing required fields) makes load raise
`TypeError` to the caller instead of resetting the store. -/
theorem load_schema_failure_raises_counterexample :
    load_tasks initialTodoApp
        (.parsed (.obj [("tasks", Json.arr [Json.obj [("id", Json.num 1)]]),
                        ("next_id", Json.num 2)]))
      = .error .typeError
  ∧ ∀ s' : TodoApp,
      load_tasks initialTodoApp
          (.parsed (.obj [("tasks", Json.arr [Json.obj [("id", Json.num 1)]]),
                          ("next_id", Json.num 2)]))
        ≠ .ok s' := by
  refine ⟨rfl, fun s' h => ?_⟩
  rw [(rfl : load_tasks initialTodoApp
      (.parsed (.obj [("tasks", Json.arr [Json.obj [("id", Json.num 1)]]),
                      ("next_id", Json.num 2)]))
    = Except.error .typeError)] at h
  cases h

/-- C2 amended: load resets the store to empty with next-id 1 exactly
when the file content fails to parse as JSON; when it parses but is not
an object, or a task record fails the Task schema, load raises the
uncaught error to the caller. -/
theorem load_malformed_policy (s : TodoApp) :
    load_tasks s .malformed = .ok ⟨[], Json.num 1⟩
  ∧ (∀ (fields : List (String × Json)) (e : PyErr),
       tasksFromJson ((getField fields "tasks").getD (Json.arr [])) = .error e →
       load_tasks s (.parsed (.obj fields)) = .error e)
  ∧ (∀ j : Json, jsonIsObj j = false → load_tasks s (.parsed j) = .error .attributeError) := by
  refine ⟨rfl, ?_, ?_⟩
  · intro fields e h
    simp [load_tasks, h]
  · intro j hj
    cases j with
    | obj fields => simp [jsonIsObj] at hj
    | null => rfl
    | bool b => rfl
    | num n => rfl
    | str t => rfl
    | arr xs => rfl

/-- C2 amended witness: concrete instances of the recovery and raise
branches. -/
theorem load_malformed_policy_witness :
    load_tasks initialTodoApp .malformed = .ok ⟨[], Json.num 1⟩
  ∧ load_tasks initialTodoApp (.parsed (.obj [("tasks", Json.num 0)])) = .error .typeError
  ∧ load_tasks initialTodoApp (.parsed (.arr [])) = .error .attributeError :=
  ⟨(load_malformed_policy initialTodoApp).1,
   (load_malformed_policy initialTodoApp).2.1 [("tasks", Json.num 0)] .typeError rfl,
   (load_malformed_policy initialTodoApp).2.2 (.arr []) rfl⟩

/-- C5 counterexample: the priority selection 0 is not one of the four
enumerated selections 1..4, yet the created task gets Urgent (via
Python negative indexing), not the documented Medium fallback. -/
theorem priority_zero_selects_urgent_counterexample :
    (0 : Int) ∉ ([1, 2, 3, 4] : List Int)
  ∧ (∃ s' t, add_task initialTodoApp "Call mom" "" (some 0) "" "" "ts"
        = .added s' t (storeToJson s') ∧ t.priority = Json.str urgentVal)
  ∧ urgentVal ≠ mediumVal := by
  refine ⟨by decide, ⟨⟨[newTask "Call mom" "" (some 0) "" "" "ts" (Json.num 1)], Json.num 2⟩,
    newTask "Call mom" "" (some 0) "" "" "ts" (Json.num 1), rfl, rfl⟩, by decide⟩

/-- C5 amended: a selection that does not parse as an integer, or parses
outside -3..4, falls back to Medium; but the out-of-enumeration
selections 0, -1, -2, -3 reach Urgent, High, Medium, Low through Python
negative indexing. -/
theorem priority_fallback_policy (s : TodoApp) (n : Int) (titleRaw descRaw : String)
    (prChoice : Option Int) (catRaw dueRaw now : String)
    (hn : s.next_id = Json.num n) (ht : pyStrip titleRaw ≠ "") :
    (∃ s' t, add_task s titleRaw descRaw prChoice catRaw dueRaw now
        = .added s' t (storeToJson s')
      ∧ t.priority = Json.str (selectPriority prChoice))
  ∧ (prChoice = none → selectPriority prChoice = mediumVal)
  ∧ (∀ k : Int, prChoice = some k → k < -3 ∨ 4 < k → selectPriority prChoice = mediumVal)
  ∧ selectPriority (some 0) = urgentVal
  ∧ selectPriority (some (-1)) = highVal
  ∧ selectPriority (some (-2)) = mediumVal
  ∧ selectPriority (some (-3)) = lowVal := by
  have hb : (pyStrip titleRaw == "") = false := by simp [ht]
  refine ⟨⟨⟨s.tasks ++ [newTask titleRaw descRaw prChoice catRaw dueRaw now (Json.num n)],
           Json.num (n + 1)⟩,
      newTask titleRaw descRaw prChoice catRaw dueRaw now (Json.num n), ?_, rfl⟩,
    ?_, ?_, rfl, rfl, rfl, rfl⟩
  · simp [add_task, hb, hn]
  · intro h; subst h; rfl
  · intro k hk hrange
    subst hk
    simp [selectPriority, pyIndex_out k hrange]

/-- C5 amended witness: concrete fallback at the out-of-range selection
7. -/
theorem priority_fallback_policy_witness :
    (∃ s' t, add_task initialTodoApp "Call dad" "" (some 7) "" "" "ts"
        = .added s' t (storeToJson s')
      ∧ t.priority = Json.str (selectPriority (some 7)))
  ∧ selectPriority (some 7) = mediumVal := by
  obtain ⟨h1, _, h3, _⟩ :=
    priority_fallback_policy initialTodoApp 1 "Call dad" "" (some 7) "" "" "ts" rfl (by decide)
  exact ⟨h1, h3 7 rfl (Or.inr (by norm_num))⟩

/-- C3: over any sequence of create and delete operations from a store
with a numeric counter, the ids assigned by the successful creates are
strictly increasing (hence unique, never reusing an id even after
deletes), and the next-id counter never decreases. -/
theorem create_ids_strictly_increasing (ops : List Op) (s : TodoApp) (n : Int)
    (h : s.next_id = Json.num n) :
    (∃ m, (runOps s ops).1.next_id = Json.num m ∧ n ≤ m)
  ∧ (runOps s ops).2.Chain' jsonLt
  ∧ (runOps s ops).2.Pairwise (fun a b => a ≠ b) := by
  obtain ⟨h1, _, h3⟩ := runOps_spec ops s n h
  refine ⟨h1, h3, ?_⟩
  have htrans : IsTrans Json jsonLt := by
    constructor
    rintro a b c ⟨x, y, rfl, rfl, hxy⟩ ⟨y2, z, hy2, rfl, hyz⟩
    obtain rfl : y = y2 := by injection hy2
    exact ⟨x, z, rfl, rfl, by omega⟩
  have hp : (runOps s ops).2.Pairwise jsonLt :=
    (@List.chain'_iff_pairwise Json jsonLt htrans _).mp h3
  refine hp.imp ?_
  rintro a b ⟨x, y, rfl, rfl, hxy⟩ hab
  have : x = y := by injection hab
  omega

/-- C3 witness: a create, delete, create run assigns the strictly
increasing ids 1 and 2. -/
theorem create_ids_strictly_increasing_witness :
    (∃ m, (runOps initialTodoApp
        [.addOp "First" "" none "" "" "t1", .delOp (some 1) "y",
         .addOp "Second" "" none "" "" "t2"]).1.next_id = Json.num m ∧ 1 ≤ m)
  ∧ (runOps initialTodoApp
        [.addOp "First" "" none "" "" "t1", .delOp (some 1) "y",
         .addOp "Second" "" none "" "" "t2"]).2.Chain' jsonLt
  ∧ (runOps initialTodoApp
        [.addOp "First" "" none "" "" "t1", .delOp (some 1) "y",
         .addOp "Second" "" none "" "" "t2"]).2.Pairwise (fun a b => a ≠ b) :=
  create_ids_strictly_increasing
    [.addOp "First" "" none "" "" "t1", .delOp (some 1) "y",
     .addOp "Second" "" none "" "" "t2"] initialTodoApp 1 rfl


/-- C8 counterexample: with a single already-completed task, the method
returns at the "No pending tasks to complete!" guard before reading an
id — it does not report "already complete" for the targeted completed
task (it is still a no-op with no save). -/
theorem mark_complete_all_completed_counterexample :
    pyEq exampleCompletedTask.status (Json.str completedVal) = true
  ∧ (⟨[exampleCompletedTask], Json.num 2⟩ : TodoApp).tasks.find?
      (fun t => pyEq t.id (Json.num 1)) = some exampleCompletedTask
  ∧ mark_complete ⟨[exampleCompletedTask], Json.num 2⟩ (some 1) "2024-01-02 09:00:00"
      = .noPending
  ∧ MarkResult.noPending ≠ MarkResult.alreadyCompleted := by
  refine ⟨rfl, rfl, rfl, fun h => MarkResult.noConfusion h⟩

/-- C8 amended: completing a task that is already completed is a no-op
with no re-stamp and no save; it reports "already complete" when some
task is still pending, but when every task is completed the guard
reports "no pending tasks" before an id is even read.  Completing a
non-completed task stamps its status and completedAt and saves. -/
theorem mark_complete_policy (s : TodoApp) (tid : Int) (now : String) :
    (s.tasks.all (fun u => pyEq u.status (Json.str completedVal)) = true →
       mark_complete s (some tid) now = .noPending
     ∧ markResultStore s (mark_complete s (some tid) now) = s
     ∧ markResultWrite (mark_complete s (some tid) now) = none)
  ∧ (∀ t, s.tasks.all (fun u => pyEq u.status (Json.str completedVal)) = false →
       s.tasks.find? (fun u => pyEq u.id (Json.num tid)) = some t →
       pyEq t.status (Json.str completedVal) = true →
       mark_complete s (some tid) now = .alreadyCompleted
     ∧ markResultStore s (mark_complete s (some tid) now) = s
     ∧ markResultWrite (mark_complete s (some tid) now) = none)
  ∧ (∀ t, s.tasks.all (fun u => pyEq u.status (Json.str completedVal)) = false →
       s.tasks.find? (fun u => pyEq u.id (Json.num tid)) = some t →
       pyEq t.status (Json.str completedVal) = false →
       ∃ l1 l2, s.tasks = l1 ++ t :: l2
         ∧ (∀ u ∈ l1, pyEq u.id (Json.num tid) = false)
         ∧ mark_complete s (some tid) now =
             .completed
               ⟨l1 ++ ({ t with
                         status := Json.str completedVal,
                         completed_at := Json.str now }) :: l2, s.next_id⟩
               ({ t with
                  status := Json.str completedVal,
                  completed_at := Json.str now })
               (storeToJson ⟨l1 ++ ({ t with
                                      status := Json.str completedVal,
                                      completed_at := Json.str now }) :: l2, s.next_id⟩)) := by
  refine ⟨?_, ?_, ?_⟩
  · intro hall
    have hres : mark_complete s (some tid) now = .noPending := by
      simp [mark_complete, hall]
    exact ⟨hres, by rw [hres]; rfl, by rw [hres]; rfl⟩
  · intro t hall hfind hst
    have hres : mark_complete s (some tid) now = .alreadyCompleted := by
      simp [mark_complete, hall, hfind, hst]
    exact ⟨hres, by rw [hres]; rfl, by rw [hres]; rfl⟩
  · intro t hall hfind hst
    obtain ⟨l1, l2, hsplit, hl1, hpt⟩ := find_decomp hfind
    refine ⟨l1, l2, hsplit, hl1, ?_⟩
    have hrep : replaceFirst (fun u => pyEq u.id (Json.num tid))
        (fun u => { u with status := Json.str completedVal, completed_at := Json.str now })
        s.tasks
        = l1 ++ ({ t with
                   status := Json.str completedVal,
                   completed_at := Json.str now }) :: l2 := by
      rw [hsplit]
      exact replaceFirst_append _ _ l1 l2 t hl1 hpt
    simp [mark_complete, hall, hfind, hst, hrep]

/-- C8 amended witness: concrete instances of all three branches. -/
theorem mark_complete_policy_witness :
    (mark_complete ⟨[exampleCompletedTask], Json.num 2⟩ (some 1) "now" = .noPending
     ∧ markResultStore ⟨[exampleCompletedTask], Json.num 2⟩
         (mark_complete ⟨[exampleCompletedTask], Json.num 2⟩ (some 1) "now")
         = ⟨[exampleCompletedTask], Json.num 2⟩
     ∧ markResultWrite (mark_complete ⟨[exampleCompletedTask], Json.num 2⟩ (some 1) "now")
         = none)
  ∧ (mark_complete ⟨[exampleCompletedTask, exampleTask2], Json.num 3⟩ (some 1) "now"
       = .alreadyCompleted
     ∧ markResultStore ⟨[exampleCompletedTask, exampleTask2], Json.num 3⟩
         (mark_complete ⟨[exampleCompletedTask, exampleTask2], Json.num 3⟩ (some 1) "now")
         = ⟨[exampleCompletedTask, exampleTask2], Json.num 3⟩
     ∧ markResultWrite
         (mark_complete ⟨[exampleCompletedTask, exampleTask2], Json.num 3⟩ (some 1) "now")
         = none)
  ∧ (∃ l1 l2,
       (⟨[exampleCompletedTask, exampleTask2], Json.num 3⟩ : TodoApp).tasks
         = l1 ++ exampleTask2 :: l2
     ∧ (∀ u ∈ l1, pyEq u.id (Json.num 2) = false)
     ∧ mark_complete ⟨[exampleCompletedTask, exampleTask2], Json.num 3⟩ (some 2) "now" =
         .completed
           ⟨l1 ++ ({ exampleTask2 with
                     status := Json.str completedVal,
                     completed_at := Json.str "now" }) :: l2, Json.num 3⟩
           ({ exampleTask2 with
              status := Json.str completedVal,
              completed_at := Json.str "now" })
           (storeToJson ⟨l1 ++ ({ exampleTask2 with
                                  status := Json.str completedVal,
                                  completed_at := Json.str "now" }) :: l2, Json.num 3⟩)) :=
  ⟨(mark_complete_policy ⟨[exampleCompletedTask], Json.num 2⟩ 1 "now").1 rfl,
   (mark_complete_policy ⟨[exampleCompletedTask, exampleTask2], Json.num 3⟩ 1 "now").2.1
     exampleCompletedTask rfl rfl rfl,
   (mark_complete_policy ⟨[exampleCompletedTask, exampleTask2], Json.num 3⟩ 2 "now").2.2
     exampleTask2 rfl rfl rfl⟩

/-- C10: deleting an existing, unique id (with confirmation) removes
exactly the task holding it: the other tasks keep their order and
values, the counter is unchanged, and the new store is saved. -/
theorem delete_removes_exactly_target (s : TodoApp) (tid : Int) (confirm : String) (t : Task)
    (hc : pyLower confirm = "y")
    (hfind : s.tasks.find? (fun u => pyEq u.id (Json.num tid)) = some t)
    (huniq : s.tasks.countP (fun u => pyEq u.id (Json.num tid)) = 1) :
    ∃ l1 l2, s.tasks = l1 ++ t :: l2
      ∧ (∀ u ∈ l1, pyEq u.id (Json.num tid) = false)
      ∧ (∀ u ∈ l2, pyEq u.id (Json.num tid) = false)
      ∧ delete_task s (some tid) confirm =
          .deleted ⟨l1 ++ l2, s.next_id⟩ t (storeToJson ⟨l1 ++ l2, s.next_id⟩) := by
  obtain ⟨l1, l2, hsplit, hl1, hpt⟩ := find_decomp hfind
  have hl2 : ∀ u ∈ l2, pyEq u.id (Json.num tid) = false := by
    rw [hsplit, List.countP_append, List.countP_cons] at huniq
    have h0 : l1.countP (fun u => pyEq u.id (Json.num tid)) = 0 :=
      List.countP_eq_zero.mpr (by intro u hu; simp [hl1 u hu])
    simp only [h0, hpt, if_true, Nat.zero_add] at huniq
    have hz : l2.countP (fun u => pyEq u.id (Json.num tid)) = 0 := by omega
    intro u hu
    have := List.countP_eq_zero.mp hz u hu
    simpa using this
  refine ⟨l1, l2, hsplit, hl1, hl2, ?_⟩
  have hne : s.tasks.isEmpty = false := by
    rw [hsplit]; cases l1 <;> rfl
  have hidx : s.tasks.findIdx (fun u => pyEq u.id (Json.num tid)) = l1.length := by
    rw [hsplit]; exact findIdx_prefix _ l1 l2 t hl1 hpt
  have hl1' : ∀ u ∈ l1, taskPyEq u t = false := by
    intro u hu
    cases htq : taskPyEq u t with
    | false => rfl
    | true =>
      have hid := taskPyEq_id htq
      have hcontra := pyEq_num_trans hid hpt
      rw [hl1 u hu] at hcontra
      cases hcontra
  have hrem : removeEqOrAt s.tasks t (s.tasks.findIdx (fun u => pyEq u.id (Json.num tid)))
      = l1 ++ l2 := by
    rw [hidx, hsplit]
    exact removeEqOrAt_append l1 l2 t hl1'
  have hcb : (pyLower confirm == "y") = true := by simp [hc]
  simp [delete_task, hne, hfind, hcb, hrem]

/-- C10 witness: deleting id 1 from a two-task store removes exactly the
first task. -/
theorem delete_removes_exactly_target_witness :
    ∃ l1 l2,
      (⟨[exampleCompletedTask, exampleTask2], Json.num 3⟩ : TodoApp).tasks
        = l1 ++ exampleCompletedTask :: l2
    ∧ (∀ u ∈ l1, pyEq u.id (Json.num 1) = false)
    ∧ (∀ u ∈ l2, pyEq u.id (Json.num 1) = false)
    ∧ delete_task ⟨[exampleCompletedTask, exampleTask2], Json.num 3⟩ (some 1) "Y" =
        .deleted ⟨l1 ++ l2, Json.num 3⟩ exampleCompletedTask
          (storeToJson ⟨l1 ++ l2, Json.num 3⟩) :=
  delete_removes_exactly_target ⟨[exampleCompletedTask, exampleTask2], Json.num 3⟩ 1 "Y"
    exampleCompletedTask (by decide) rfl (by decide)

end Todo
